import Mathlib

/-!
Shallow embedding of the Buddies Brawl game-state machine (src/gameState.ts,
src/decks.ts) and proofs of the specification claims about it.

Modelling conventions:
* JavaScript `undefined`-able numeric fields become `Option Int` / `Option Nat`;
  the JS coalescing `x ?? 0` and truthiness fallback `x || 0` become `Option.getD 0`
  (the two coincide here because a `turnPlaced` of `0` is falsy in JS and `getD 0`
  also yields `0` for `some 0`).
* Mutating methods become functions `GameState → GameState × List Event`; the
  event list records the notifications dispatched through the event bus.
* `Math.random()`-driven choices (shuffles, the Coach-Whistle pick) become
  explicit parameters; shuffle parameters are constrained to be permutations
  where a theorem needs it.
* JS array `splice` index clamping (negative indices count from the end) is
  modelled by `spliceIdx`.
-/

/-- One card, template fields and instance fields together (src/decks.ts `Card`). -/
structure Card where
  id : String
  cname : String := ""
  hp : Option Int := none
  maxHp : Option Int := none
  attackNm : Option String := none
  attackDamage : Option Int := none
  evolvesFrom : Option String := none
  evolvesFromBasic : Option String := none
  isBasic : Bool := false
  isEx : Bool := false
  isTrainer : Bool := false
  isSupporter : Bool := false
  isItem : Bool := false
  rule : Option String := none
  turnPlaced : Option Nat := none
  uid : Nat := 0
deriving DecidableEq, Repr

/-- The static card catalog `CARD_DATA` (src/decks.ts). -/
def CARD_DATA (id : String) : Option Card :=
  if id = "base-001" then some { id := id, cname := "Axolittle", hp := some 60, attackNm := some "Boink", attackDamage := some 20, isBasic := true }
  else if id = "base-002" then some { id := id, cname := "Axolora", hp := some 90, attackNm := some "Wand Splash", attackDamage := some 40, evolvesFrom := some "base-001" }
  else if id = "base-003" then some { id := id, cname := "Lazycat", hp := some 60, attackNm := some "Yawn", attackDamage := some 20, isBasic := true }
  else if id = "base-004" then some { id := id, cname := "Guard Cat", hp := some 100, attackNm := some "Spine Arch", attackDamage := some 40, evolvesFrom := some "base-003" }
  else if id = "base-005" then some { id := id, cname := "MC Scratchinator", hp := some 180, attackNm := some "Vinyl Scratch", attackDamage := some 120, evolvesFrom := some "base-004", evolvesFromBasic := some "base-003", isEx := true }
  else if id = "base-006" then some { id := id, cname := "Panda's Plan", rule := some "Draw 2 cards.", isTrainer := true, isSupporter := true }
  else if id = "base-007" then some { id := id, cname := "Coach Whistle", rule := some "Draw one random basic Buddy.", isTrainer := true, isItem := true }
  else if id = "base-008" then some { id := id, cname := "Chicken Nugget", rule := some "Evolve a basic Buddy to stage 2.", isTrainer := true, isItem := true }
  else none

/-- `createCard` (src/gameState.ts): stamp a template into an instance with
`hp = maxHp = template.hp` and a fresh uid. -/
def createCard (id : String) (uid : Nat) : Option Card :=
  (CARD_DATA id).map fun t => { t with hp := t.hp, maxHp := t.hp, uid := uid }

/-- The default deck list `DECK_CONFIGS[0]` expanded card-by-card in `flatMap`
order (src/decks.ts). -/
def defaultDeckIds : List String :=
  ["base-001", "base-001", "base-001",
   "base-002", "base-002", "base-002",
   "base-003", "base-003", "base-003",
   "base-004", "base-004",
   "base-005", "base-005",
   "base-006", "base-006", "base-006",
   "base-007", "base-007",
   "base-008", "base-008"]

/-- `createDeck DECK_CONFIGS[0]` before its shuffle: 20 instances with uids
assigned in creation order starting at `startUid`. -/
def mkDeck (startUid : Nat) : List Card :=
  defaultDeckIds.enum.filterMap fun p => createCard p.2 (startUid + p.1)

inductive PlayerId where
  | one
  | two
deriving DecidableEq, Repr

def opponentOf : PlayerId → PlayerId
  | PlayerId.one => PlayerId.two
  | PlayerId.two => PlayerId.one

inductive Phase where
  | setup
  | playing
deriving DecidableEq, Repr

/-- Notifications dispatched on the event bus. -/
inductive Event where
  | gameInitialized
  | gameStateUpdated
  | turnStarted (p : PlayerId)
  | gameEnded (w : PlayerId)
deriving DecidableEq, Repr

/-- `PlayerState` (src/gameState.ts). -/
structure PlayerState where
  deck : List Card
  hand : List Card
  active : Option Card
  bench : List (Option Card)
  points : Nat
  hasPlayedSupporter : Bool
deriving DecidableEq, Repr

/-- `GameState` fields (src/gameState.ts). -/
structure GameState where
  phase : Phase
  currentPlayer : PlayerId
  gameOver : Bool
  winner : Option PlayerId
  turnCount : Nat
  setupReady1 : Bool
  setupReady2 : Bool
  player1 : PlayerState
  player2 : PlayerState
deriving DecidableEq, Repr

/-- The `GameState` constructor. -/
def initState : GameState :=
  let ps : PlayerState :=
    { deck := [], hand := [], active := none, bench := [none, none, none],
      points := 0, hasPlayedSupporter := false }
  { phase := Phase.setup, currentPlayer := PlayerId.one, gameOver := false,
    winner := none, turnCount := 0, setupReady1 := false, setupReady2 := false,
    player1 := ps, player2 := ps }

def getPlayer (s : GameState) : PlayerId → PlayerState
  | PlayerId.one => s.player1
  | PlayerId.two => s.player2

def setPlayer (s : GameState) : PlayerId → PlayerState → GameState
  | PlayerId.one, ps => { s with player1 := ps }
  | PlayerId.two, ps => { s with player2 := ps }

def updatePlayer (s : GameState) (p : PlayerId) (f : PlayerState → PlayerState) : GameState :=
  setPlayer s p (f (getPlayer s p))

/-- `canAct` (src/gameState.ts line 52). -/
def canAct (s : GameState) (p : PlayerId) : Bool :=
  decide (p = s.currentPlayer) && decide (s.phase = Phase.playing) && !s.gameOver

/-- JS array indexing `arr[i]` with a possibly negative or out-of-range index. -/
def jsGet (l : List Card) (i : Int) : Option Card :=
  if i < 0 then none else l[i.toNat]?

/-- `p.bench[i]` flattened: `none` when the index is out of range or the slot is
empty (both are falsy in JS). -/
def benchGet (bench : List (Option Card)) (i : Int) : Option Card :=
  if i < 0 then none else (bench[i.toNat]?).join

/-- The start position of a JS `splice(i, ...)` call: negative indices count
from the end of the array, clamped at 0. -/
def spliceIdx (len : Nat) (i : Int) : Nat :=
  if i < 0 then ((len : Int) + i).toNat else i.toNat

/-- `arr.splice(i, 1)` as a removal (JS clamps out-of-range starts to a no-op). -/
def spliceRemove1 (l : List Card) (i : Int) : List Card :=
  l.eraseIdx (spliceIdx l.length i)

/-- `drawCards` (src/gameState.ts lines 64-67): `hand.push(...deck.splice(-count))`. -/
def drawCardsP (ps : PlayerState) (count : Nat) : PlayerState :=
  let k := ps.deck.length - count
  { ps with hand := ps.hand ++ ps.deck.drop k, deck := ps.deck.take k }

/-- `startTurn` (src/gameState.ts lines 91-100). -/
def startTurn (p : PlayerId) (s : GameState) : GameState × List Event :=
  let s1 := { s with currentPlayer := p, turnCount := s.turnCount + 1 }
  let s2 := updatePlayer s1 p fun ps => { ps with hasPlayedSupporter := false }
  let s3 := if s2.turnCount > 1 then updatePlayer s2 p (fun ps => drawCardsP ps 1) else s2
  (s3, [Event.turnStarted p, Event.gameStateUpdated])

/-- `endTurn` (src/gameState.ts lines 102-105). -/
def endTurn (s : GameState) : GameState × List Event :=
  if s.gameOver then (s, [])
  else startTurn (opponentOf s.currentPlayer) s

/-- `endGame` (src/gameState.ts lines 107-111). -/
def endGame (w : PlayerId) (s : GameState) : GameState × List Event :=
  ({ s with gameOver := true, winner := some w }, [Event.gameEnded w])

/-- `setPlayerReady` (src/gameState.ts lines 80-89). -/
def setPlayerReady (p : PlayerId) (s : GameState) : GameState × List Event :=
  if s.phase ≠ Phase.setup ∨ (getPlayer s p).active = none then (s, [])
  else
    let s1 := match p with
      | PlayerId.one => { s with setupReady1 := true }
      | PlayerId.two => { s with setupReady2 := true }
    if s1.setupReady1 ∧ s1.setupReady2 then
      startTurn PlayerId.one { s1 with phase := Phase.playing }
    else (s1, [Event.gameStateUpdated])

/-- `_playSupporter` (src/gameState.ts lines 128-134).  Returns the mutated
state and the `cardWasPlayed` flag.  The 2-card draw goes to the *current*
player (as in the source), the hand splice and flag to player `p`. -/
def playSupporter (p : PlayerId) (i : Nat) (s : GameState) : GameState × Bool :=
  if s.phase = Phase.setup ∨ (getPlayer s p).hasPlayedSupporter then (s, false)
  else
    let s1 := updatePlayer s s.currentPlayer fun ps => drawCardsP ps 2
    let s2 := updatePlayer s1 p fun ps =>
      { ps with hand := ps.hand.eraseIdx i, hasPlayedSupporter := true }
    (s2, true)

/-- The `basicIndices` computation of `_playCoachWhistle`:
`deck.map((c, i) => c.isBasic ? i : -1).filter(i => i !== -1)`. -/
def basicIndices (deck : List Card) : List Nat :=
  deck.enum.filterMap fun q => if q.2.isBasic then some q.1 else none

/-- `_playCoachWhistle` (src/gameState.ts lines 136-146).  `pick` stands for the
`Math.random()` draw (reduced mod the number of candidates) and `σ` for the
final shuffle. -/
def playCoachWhistle (p : PlayerId) (i : Nat) (pick : Nat)
    (σ : List Card → List Card) (s : GameState) : GameState × Bool :=
  if s.phase = Phase.setup then (s, false)
  else
    let s1 := updatePlayer s p fun ps =>
      let hand1 := ps.hand.eraseIdx i
      let bIdx := basicIndices ps.deck
      if bIdx.isEmpty then
        { ps with hand := hand1, deck := σ ps.deck }
      else
        let j := bIdx.getD (pick % bIdx.length) 0
        { ps with hand := hand1 ++ (ps.deck[j]?).toList,
                  deck := σ (ps.deck.eraseIdx j) }
    (s1, true)

/-- `_playBasic` (src/gameState.ts lines 148-163).  Note that the source stamps
`turnPlaced` on the card object *before* checking for a free bench slot, so the
card put back into the hand on the full-bench path keeps the stamp. -/
def playBasic (p : PlayerId) (i : Nat) (s : GameState) : GameState × Bool :=
  let ps := getPlayer s p
  match ps.hand[i]? with
  | none => (s, false)
  | some card =>
    let stamped := { card with turnPlaced := some s.turnCount }
    let hand1 := ps.hand.eraseIdx i
    match ps.active with
    | none => (setPlayer s p { ps with hand := hand1, active := some stamped }, true)
    | some _ =>
      match ps.bench.indexOf? none with
      | none => (setPlayer s p { ps with hand := hand1.insertIdx i stamped }, false)
      | some bIdx => (setPlayer s p { ps with hand := hand1, bench := ps.bench.set bIdx (some stamped) }, true)

/-- `playCard` (src/gameState.ts lines 113-126). -/
def playCard (p : PlayerId) (handIndex : Int) (pick : Nat)
    (σ : List Card → List Card) (s : GameState) : GameState × List Event :=
  if s.gameOver ∨ (s.phase = Phase.playing ∧ s.currentPlayer ≠ p) then (s, [])
  else
    match jsGet (getPlayer s p).hand handIndex with
    | none => (s, [])
    | some card =>
      let r : GameState × Bool :=
        if card.isSupporter then playSupporter p handIndex.toNat s
        else if card.id = "base-007" then playCoachWhistle p handIndex.toNat pick σ s
        else if card.id = "base-008" then (s, false)
        else if card.isBasic then playBasic p handIndex.toNat s
        else (s, false)
      if r.2 then (r.1, [Event.gameStateUpdated]) else (r.1, [])

/-- `_performEvolution` (src/gameState.ts lines 165-172). -/
def performEvolution (p : PlayerId) (evolvedCard targetCard : Card)
    (targetBoardIndex : Int) (s : GameState) : GameState × List Event :=
  let damage := targetCard.maxHp.getD 0 - targetCard.hp.getD 0
  let evolved := { evolvedCard with hp := some (evolvedCard.maxHp.getD 0 - damage),
                                    turnPlaced := some s.turnCount }
  let s1 := updatePlayer s p fun ps =>
    if targetBoardIndex = -1 then { ps with active := some evolved }
    else { ps with bench := ps.bench.set targetBoardIndex.toNat (some evolved) }
  (s1, [Event.gameStateUpdated])

/-- The board target of `evolve` / `playChickenNugget`: index −1 means the
active slot, 0..2 a bench slot. -/
def targetOf (s : GameState) (p : PlayerId) (targetBoardIndex : Int) : Option Card :=
  if targetBoardIndex = -1 then (getPlayer s p).active
  else benchGet (getPlayer s p).bench targetBoardIndex

/-- `evolve` (src/gameState.ts lines 190-201). -/
def evolve (p : PlayerId) (handIndex targetBoardIndex : Int) (s : GameState) :
    GameState × List Event :=
  let ps := getPlayer s p
  match targetOf s p targetBoardIndex, jsGet ps.hand handIndex with
  | some target, some hcard =>
    if canAct s p = true ∧ 1 < s.turnCount
        ∧ hcard.evolvesFrom.getD "" ≠ ""
        ∧ hcard.evolvesFrom = some target.id
        ∧ target.turnPlaced.getD 0 < s.turnCount then
      let s1 := updatePlayer s p fun q => { q with hand := q.hand.eraseIdx handIndex.toNat }
      performEvolution p hcard target targetBoardIndex s1
    else (s, [])
  | _, _ => (s, [])

/-- `playChickenNugget` (src/gameState.ts lines 174-188).  Returns the mutated
state, the events, and the boolean result of the method. -/
def playChickenNugget (p : PlayerId) (handIndex targetBoardIndex : Int)
    (s : GameState) : GameState × List Event × Bool :=
  let ps := getPlayer s p
  match targetOf s p targetBoardIndex with
  | none => (s, [], false)
  | some target =>
    if canAct s p = true ∧ target.isBasic = true
        ∧ target.turnPlaced.getD 0 < s.turnCount then
      match ps.hand.enum.find? fun q =>
          decide ((q.1 : Int) ≠ handIndex) && decide (q.2.evolvesFromBasic = some target.id) with
      | none => (s, [], false)
      | some (i2, evolvedCard) =>
        let hand1 :=
          if handIndex ≤ (i2 : Int) then
            spliceRemove1 (spliceRemove1 ps.hand i2) handIndex
          else
            spliceRemove1 (spliceRemove1 ps.hand handIndex) i2
        let s1 := setPlayer s p { ps with hand := hand1 }
        let r := performEvolution p evolvedCard target targetBoardIndex s1
        (r.1, r.2, true)
    else (s, [], false)

/-- `attack` (src/gameState.ts lines 203-221). -/
def attack (s : GameState) : GameState × List Event :=
  if canAct s s.currentPlayer then
    let p := getPlayer s s.currentPlayer
    let o := getPlayer s (opponentOf s.currentPlayer)
    match p.active, o.active with
    | some pa, some oa =>
      let newHp : Int := oa.hp.getD 0 - pa.attackDamage.getD 0
      if newHp ≤ 0 then
        let pts := p.points + (if oa.isEx then 2 else 1)
        let s1 := setPlayer s s.currentPlayer { p with points := pts }
        let s2 := setPlayer s1 (opponentOf s.currentPlayer)
          { (getPlayer s1 (opponentOf s.currentPlayer)) with active := none }
        if 3 ≤ pts ∨ ¬ o.bench.any (·.isSome) then endGame s.currentPlayer s2
        else endTurn s2
      else
        let s1 := setPlayer s (opponentOf s.currentPlayer) { o with active := some { oa with hp := some newHp } }
        endTurn s1
    | _, _ => (s, [])
  else (s, [])

/-- `promote` (src/gameState.ts lines 223-228). -/
def promote (p : PlayerId) (benchIndex : Int) (s : GameState) : GameState × List Event :=
  let ps := getPlayer s p
  if s.gameOver ∨ ps.active.isSome ∨ benchGet ps.bench benchIndex = none then (s, [])
  else
    let s1 := setPlayer s p
      { ps with active := benchGet ps.bench benchIndex,
                bench := ps.bench.set benchIndex.toNat none }
    (s1, [Event.gameStateUpdated])

/-- `retreat` (src/gameState.ts lines 230-236). -/
def retreat (p : PlayerId) (benchIndex : Int) (s : GameState) : GameState × List Event :=
  if canAct s p then
    let ps := getPlayer s p
    match ps.active, benchGet ps.bench benchIndex with
    | some a, some b =>
      (setPlayer s p { ps with active := some b, bench := ps.bench.set benchIndex.toNat (some a) },
       [Event.gameStateUpdated])
    | _, _ => (s, [])
  else (s, [])

/-- One iteration of the `drawInitialHands` do-while body plus the loop
(src/gameState.ts lines 69-78), with a fuel bound standing in for the unbounded
retry: shuffle the hand back into the deck, reshuffle, draw 5, repeat until the
hand holds a basic creature.  `t k` is the shuffle used on iteration `k`. -/
def drawInitialLoop (t : Nat → List Card → List Card) :
    Nat → Nat → List Card → List Card → Option (List Card × List Card)
  | 0, _, _, _ => none
  | fuel + 1, k, deck, hand =>
    let d := t k (deck ++ hand)
    let n := d.length - 5
    let deck2 := d.take n
    let hand2 := d.drop n
    if hand2.any (·.isBasic) then some (deck2, hand2)
    else drawInitialLoop t fuel (k + 1) deck2 hand2

/-- `initializeGame` (src/gameState.ts lines 57-62) starting from the freshly
constructed state: build both 20-card decks (uids 0-19 and 20-39), run the
initial-hand retry loop for each player.  `σ1`, `σ2` are the `createDeck`
shuffles, `t1`, `t2` the per-iteration loop shuffles; `none` models the loop
not terminating within `fuel` iterations. -/
def initializeGame (σ1 σ2 : List Card → List Card)
    (t1 t2 : Nat → List Card → List Card) (fuel : Nat) :
    Option (GameState × List Event) :=
  match drawInitialLoop t1 fuel 0 (σ1 (mkDeck 0)) [],
        drawInitialLoop t2 fuel 0 (σ2 (mkDeck 20)) [] with
  | some (dk1, h1), some (dk2, h2) =>
    some ({ initState with
              player1 := { initState.player1 with deck := dk1, hand := h1 },
              player2 := { initState.player2 with deck := dk2, hand := h2 } },
          [Event.gameInitialized])
  | _, _ => none

/-- The reachable game states: the result of `initializeGame` (under arbitrary
permutation shuffles) followed by any sequence of public operations (with
arbitrary permutation shuffles and random picks). -/
inductive Reachable : GameState → Prop
  | init (σ1 σ2 : List Card → List Card) (t1 t2 : Nat → List Card → List Card)
      (fuel : Nat) (s : GameState) (ev : List Event) :
      (∀ l, (σ1 l).Perm l) → (∀ l, (σ2 l).Perm l) →
      (∀ k l, (t1 k l).Perm l) → (∀ k l, (t2 k l).Perm l) →
      initializeGame σ1 σ2 t1 t2 fuel = some (s, ev) → Reachable s
  | stepPlayCard (s : GameState) (p : PlayerId) (i : Int) (pick : Nat)
      (σ : List Card → List Card) : Reachable s → (∀ l, (σ l).Perm l) →
      Reachable (playCard p i pick σ s).1
  | stepEvolve (s : GameState) (p : PlayerId) (i t : Int) : Reachable s →
      Reachable (evolve p i t s).1
  | stepNugget (s : GameState) (p : PlayerId) (i t : Int) : Reachable s →
      Reachable (playChickenNugget p i t s).1
  | stepAttack (s : GameState) : Reachable s → Reachable (attack s).1
  | stepPromote (s : GameState) (p : PlayerId) (b : Int) : Reachable s →
      Reachable (promote p b s).1
  | stepRetreat (s : GameState) (p : PlayerId) (b : Int) : Reachable s →
      Reachable (retreat p b s).1
  | stepEndTurn (s : GameState) : Reachable s → Reachable (endTurn s).1
  | stepReady (s : GameState) (p : PlayerId) : Reachable s →
      Reachable (setPlayerReady p s).1


/-! ### Basic structural lemmas -/

@[simp] theorem getPlayer_setPlayer_same (s : GameState) (p : PlayerId) (ps : PlayerState) :
    getPlayer (setPlayer s p ps) p = ps := by
  cases p <;> rfl

theorem getPlayer_setPlayer_ne (s : GameState) {p q : PlayerId} (ps : PlayerState) (h : q ≠ p) :
    getPlayer (setPlayer s p ps) q = getPlayer s q := by
  cases p <;> cases q <;> simp_all [getPlayer, setPlayer]

@[simp] theorem opponentOf_ne (p : PlayerId) : ¬ opponentOf p = p := by
  cases p <;> decide

@[simp] theorem ne_opponentOf (p : PlayerId) : ¬ p = opponentOf p := by
  cases p <;> decide

@[simp] theorem opponentOf_opponentOf (p : PlayerId) : opponentOf (opponentOf p) = p := by
  cases p <;> rfl

@[simp] theorem phase_setPlayer (s : GameState) (p : PlayerId) (ps : PlayerState) :
    (setPlayer s p ps).phase = s.phase := by
  cases p <;> rfl

@[simp] theorem gameOver_setPlayer (s : GameState) (p : PlayerId) (ps : PlayerState) :
    (setPlayer s p ps).gameOver = s.gameOver := by
  cases p <;> rfl

@[simp] theorem winner_setPlayer (s : GameState) (p : PlayerId) (ps : PlayerState) :
    (setPlayer s p ps).winner = s.winner := by
  cases p <;> rfl

@[simp] theorem currentPlayer_setPlayer (s : GameState) (p : PlayerId) (ps : PlayerState) :
    (setPlayer s p ps).currentPlayer = s.currentPlayer := by
  cases p <;> rfl

@[simp] theorem turnCount_setPlayer (s : GameState) (p : PlayerId) (ps : PlayerState) :
    (setPlayer s p ps).turnCount = s.turnCount := by
  cases p <;> rfl

theorem canAct_iff (s : GameState) (p : PlayerId) :
    canAct s p = true ↔ p = s.currentPlayer ∧ s.phase = Phase.playing ∧ s.gameOver = false := by
  simp [canAct, and_assoc]

/-! ### Frame lemmas: which operations touch `phase`, `gameOver`, `winner` -/

theorem startTurn_frame (p : PlayerId) (s : GameState) :
    (startTurn p s).1.phase = s.phase ∧ (startTurn p s).1.gameOver = s.gameOver ∧
    (startTurn p s).1.winner = s.winner := by
  simp only [startTurn, updatePlayer]
  split <;> simp

theorem endTurn_frame (s : GameState) :
    (endTurn s).1.phase = s.phase ∧ (endTurn s).1.gameOver = s.gameOver ∧
    (endTurn s).1.winner = s.winner := by
  simp only [endTurn]
  split
  · exact ⟨rfl, rfl, rfl⟩
  · exact startTurn_frame _ _

theorem playSupporter_frame (p : PlayerId) (i : Nat) (s : GameState) :
    (playSupporter p i s).1.phase = s.phase ∧
    (playSupporter p i s).1.gameOver = s.gameOver ∧
    (playSupporter p i s).1.winner = s.winner := by
  simp only [playSupporter, updatePlayer]
  refine ⟨?_, ?_, ?_⟩ <;> (repeat' split) <;> simp

theorem playCoachWhistle_frame (p : PlayerId) (i pick : Nat)
    (σ : List Card → List Card) (s : GameState) :
    (playCoachWhistle p i pick σ s).1.phase = s.phase ∧
    (playCoachWhistle p i pick σ s).1.gameOver = s.gameOver ∧
    (playCoachWhistle p i pick σ s).1.winner = s.winner := by
  simp only [playCoachWhistle, updatePlayer]
  refine ⟨?_, ?_, ?_⟩ <;> (repeat' split) <;> simp

theorem playBasic_frame (p : PlayerId) (i : Nat) (s : GameState) :
    (playBasic p i s).1.phase = s.phase ∧
    (playBasic p i s).1.gameOver = s.gameOver ∧
    (playBasic p i s).1.winner = s.winner := by
  simp only [playBasic]
  refine ⟨?_, ?_, ?_⟩ <;> (repeat' split) <;> simp

theorem playCard_frame (p : PlayerId) (i : Int) (pick : Nat)
    (σ : List Card → List Card) (s : GameState) :
    (playCard p i pick σ s).1.phase = s.phase ∧
    (playCard p i pick σ s).1.gameOver = s.gameOver ∧
    (playCard p i pick σ s).1.winner = s.winner := by
  simp only [playCard]
  refine ⟨?_, ?_, ?_⟩ <;> (repeat' split) <;>
    simp [playSupporter_frame p i.toNat s,
      playCoachWhistle_frame p i.toNat pick σ s, playBasic_frame p i.toNat s]

theorem evolve_frame (p : PlayerId) (hi tbi : Int) (s : GameState) :
    (evolve p hi tbi s).1.phase = s.phase ∧
    (evolve p hi tbi s).1.gameOver = s.gameOver ∧
    (evolve p hi tbi s).1.winner = s.winner := by
  simp only [evolve, performEvolution, updatePlayer]
  refine ⟨?_, ?_, ?_⟩ <;> (repeat' split) <;> simp

theorem playChickenNugget_frame (p : PlayerId) (hi tbi : Int) (s : GameState) :
    (playChickenNugget p hi tbi s).1.phase = s.phase ∧
    (playChickenNugget p hi tbi s).1.gameOver = s.gameOver ∧
    (playChickenNugget p hi tbi s).1.winner = s.winner := by
  simp only [playChickenNugget, performEvolution, updatePlayer]
  refine ⟨?_, ?_, ?_⟩ <;> (repeat' split) <;> simp

theorem promote_frame (p : PlayerId) (b : Int) (s : GameState) :
    (promote p b s).1.phase = s.phase ∧ (promote p b s).1.gameOver = s.gameOver ∧
    (promote p b s).1.winner = s.winner := by
  simp only [promote]
  refine ⟨?_, ?_, ?_⟩ <;> (repeat' split) <;> simp

theorem retreat_frame (p : PlayerId) (b : Int) (s : GameState) :
    (retreat p b s).1.phase = s.phase ∧ (retreat p b s).1.gameOver = s.gameOver ∧
    (retreat p b s).1.winner = s.winner := by
  simp only [retreat]
  refine ⟨?_, ?_, ?_⟩ <;> (repeat' split) <;> simp

theorem setPlayerReady_gameOver (p : PlayerId) (s : GameState) :
    (setPlayerReady p s).1.gameOver = s.gameOver := by
  simp only [setPlayerReady]
  repeat' split
  all_goals simp [(startTurn_frame PlayerId.one _).2.1]

theorem attack_frame_phase (s : GameState) : (attack s).1.phase = s.phase := by
  simp only [attack, endGame]
  repeat' split
  all_goals simp [(endTurn_frame _).1]

theorem setPlayerReady_of_playing (p : PlayerId) (s : GameState)
    (h : s.phase = Phase.playing) : setPlayerReady p s = (s, []) := by
  simp only [setPlayerReady]
  rw [if_pos]
  exact Or.inl (by rw [h]; decide)

theorem initializeGame_shape {σ1 σ2 : List Card → List Card}
    {t1 t2 : Nat → List Card → List Card} {fuel : Nat} {s : GameState} {ev : List Event}
    (h : initializeGame σ1 σ2 t1 t2 fuel = some (s, ev)) :
    s.gameOver = false ∧ s.phase = Phase.setup := by
  simp only [initializeGame] at h
  split at h
  · simp only [Option.some.injEq, Prod.mk.injEq] at h
    obtain ⟨h1, -⟩ := h
    subst h1
    exact ⟨rfl, rfl⟩
  · exact absurd h (by simp)

theorem canAct_of_gameOver {s : GameState} (p : PlayerId) (h : s.gameOver = true) :
    canAct s p = false := by
  simp [canAct, h]

/-- The state-machine invariant: the game can only be over in the playing phase. -/
theorem reachable_gameOver_playing {s : GameState} (hr : Reachable s) :
    s.gameOver = true → s.phase = Phase.playing := by
  induction hr with
  | init σ1 σ2 t1 t2 fuel s ev h1 h2 h3 h4 h =>
    intro hg
    exact absurd hg (by simp [(initializeGame_shape h).1])
  | stepPlayCard s p i pick σ hr hσ ih =>
    intro hg
    rw [(playCard_frame p i pick σ s).2.1] at hg
    rw [(playCard_frame p i pick σ s).1]
    exact ih hg
  | stepEvolve s p i t hr ih =>
    intro hg
    rw [(evolve_frame p i t s).2.1] at hg
    rw [(evolve_frame p i t s).1]
    exact ih hg
  | stepNugget s p i t hr ih =>
    intro hg
    rw [(playChickenNugget_frame p i t s).2.1] at hg
    rw [(playChickenNugget_frame p i t s).1]
    exact ih hg
  | stepAttack s hr ih =>
    intro hg
    rw [attack_frame_phase]
    by_cases hca : canAct s s.currentPlayer = true
    · exact ((canAct_iff s s.currentPlayer).1 hca).2.1
    · have hnoop : attack s = (s, []) := by
        simp only [attack]
        rw [if_neg (by simpa using hca)]
      rw [hnoop] at hg
      exact ih hg
  | stepPromote s p b hr ih =>
    intro hg
    rw [(promote_frame p b s).2.1] at hg
    rw [(promote_frame p b s).1]
    exact ih hg
  | stepRetreat s p b hr ih =>
    intro hg
    rw [(retreat_frame p b s).2.1] at hg
    rw [(retreat_frame p b s).1]
    exact ih hg
  | stepEndTurn s hr ih =>
    intro hg
    rw [(endTurn_frame s).2.1] at hg
    rw [(endTurn_frame s).1]
    exact ih hg
  | stepReady s p hr ih =>
    intro hg
    rw [setPlayerReady_gameOver] at hg
    have hph := ih hg
    rw [setPlayerReady_of_playing p s hph]
    exact hph

/-! ### No-op lemmas for a finished game -/

theorem playCard_of_gameOver {s : GameState} (p : PlayerId) (i : Int) (pick : Nat)
    (σ : List Card → List Card) (h : s.gameOver = true) :
    playCard p i pick σ s = (s, []) := by
  simp [playCard, h]

theorem evolve_of_gameOver {s : GameState} (p : PlayerId) (hi tbi : Int)
    (h : s.gameOver = true) : evolve p hi tbi s = (s, []) := by
  simp only [evolve]
  repeat' split
  all_goals first
    | rfl
    | (rename_i hgd; exact absurd hgd.1 (by simp [canAct_of_gameOver p h]))

theorem playChickenNugget_of_gameOver {s : GameState} (p : PlayerId) (hi tbi : Int)
    (h : s.gameOver = true) : playChickenNugget p hi tbi s = (s, [], false) := by
  simp only [playChickenNugget]
  split
  · rfl
  · split
    · rename_i hgd
      exact absurd hgd.1 (by simp [canAct_of_gameOver p h])
    · rfl

theorem attack_of_gameOver {s : GameState} (h : s.gameOver = true) :
    attack s = (s, []) := by
  simp only [attack]
  rw [if_neg (by simp [canAct_of_gameOver _ h])]

theorem promote_of_gameOver {s : GameState} (p : PlayerId) (b : Int)
    (h : s.gameOver = true) : promote p b s = (s, []) := by
  simp [promote, h]

theorem retreat_of_gameOver {s : GameState} (p : PlayerId) (b : Int)
    (h : s.gameOver = true) : retreat p b s = (s, []) := by
  simp only [retreat]
  rw [if_neg (by simp [canAct_of_gameOver p h])]

theorem endTurn_of_gameOver {s : GameState} (h : s.gameOver = true) :
    endTurn s = (s, []) := by
  simp [endTurn, h]

/-! ### Concrete shuffles and traces -/

/-- A concrete shuffle: move the cards matching `p` to the back of the deck,
preserving relative order. -/
def toBack (p : Card → Bool) (l : List Card) : List Card :=
  l.filter (fun c => !p c) ++ l.filter p

theorem toBack_perm (p : Card → Bool) (l : List Card) : (toBack p l).Perm l :=
  List.perm_append_comm.trans (List.filter_append_perm p l)

/-- Shuffle used for the finished-game trace: basics go to the deck bottom
(the drawn end), so the opening hand is `[001, 001, 003, 003, 003]`. -/
def benchShuffle : List Card → List Card := toBack (·.isBasic)

/-- A full game played out to a win for player 1: both players open with an
Axolittle active, then player 1 attacks on turns 1, 3, 5 and player 2 on turns
2, 4; the fifth attack knocks out player 2's only creature. -/
def game5A : GameState :=
  ((initializeGame benchShuffle benchShuffle (fun _ => benchShuffle)
    (fun _ => benchShuffle) 1).getD (initState, [])).1

def game5B : GameState := (playCard PlayerId.one 0 0 id game5A).1

def game5C : GameState := (playCard PlayerId.two 0 0 id game5B).1

def game5D : GameState := (setPlayerReady PlayerId.one game5C).1

def game5E : GameState := (setPlayerReady PlayerId.two game5D).1

def game5F : GameState := (attack game5E).1

def game5G : GameState := (attack game5F).1

def game5H : GameState := (attack game5G).1

def game5I : GameState := (attack game5H).1

/-- The final, finished state of the traced game. -/
def gameDone : GameState := (attack game5I).1

theorem reachable_gameDone : Reachable gameDone := by
  have h0 : Reachable game5A :=
    Reachable.init benchShuffle benchShuffle (fun _ => benchShuffle)
      (fun _ => benchShuffle) 1 game5A [Event.gameInitialized]
      (fun l => toBack_perm _ l) (fun l => toBack_perm _ l)
      (fun _ l => toBack_perm _ l) (fun _ l => toBack_perm _ l) (by decide)
  have h1 : Reachable game5B :=
    Reachable.stepPlayCard game5A PlayerId.one 0 0 id h0 (fun l => List.Perm.refl l)
  have h2 : Reachable game5C :=
    Reachable.stepPlayCard game5B PlayerId.two 0 0 id h1 (fun l => List.Perm.refl l)
  have h3 : Reachable game5D := Reachable.stepReady game5C PlayerId.one h2
  have h4 : Reachable game5E := Reachable.stepReady game5D PlayerId.two h3
  have h5 : Reachable game5F := Reachable.stepAttack game5E h4
  have h6 : Reachable game5G := Reachable.stepAttack game5F h5
  have h7 : Reachable game5H := Reachable.stepAttack game5G h6
  have h8 : Reachable game5I := Reachable.stepAttack game5H h7
  exact Reachable.stepAttack game5I h8

/-- C5: once `gameOver` is set, every public operation of the state machine
leaves a reachable state entirely unchanged and emits no notification (hence
in particular `winner`, set by `attack`'s `endGame`, can never change again). -/
theorem C5_game_over_terminal (s : GameState) (hr : Reachable s)
    (hg : s.gameOver = true) :
    (∀ p i pick σ, playCard p i pick σ s = (s, []))
    ∧ (∀ p hi tbi, evolve p hi tbi s = (s, []))
    ∧ (∀ p hi tbi, playChickenNugget p hi tbi s = (s, [], false))
    ∧ attack s = (s, [])
    ∧ (∀ p b, promote p b s = (s, []))
    ∧ (∀ p b, retreat p b s = (s, []))
    ∧ endTurn s = (s, [])
    ∧ (∀ p, setPlayerReady p s = (s, [])) := by
  have hph := reachable_gameOver_playing hr hg
  exact ⟨fun p i pick σ => playCard_of_gameOver p i pick σ hg,
    fun p hi tbi => evolve_of_gameOver p hi tbi hg,
    fun p hi tbi => playChickenNugget_of_gameOver p hi tbi hg,
    attack_of_gameOver hg,
    fun p b => promote_of_gameOver p b hg,
    fun p b => retreat_of_gameOver p b hg,
    endTurn_of_gameOver hg,
    fun p => setPlayerReady_of_playing p s hph⟩

theorem C5_witness :
    gameDone.gameOver = true ∧ gameDone.winner = some PlayerId.one
    ∧ playCard PlayerId.one 0 0 id gameDone = (gameDone, [])
    ∧ evolve PlayerId.one 0 (-1) gameDone = (gameDone, [])
    ∧ playChickenNugget PlayerId.one 0 (-1) gameDone = (gameDone, [], false)
    ∧ attack gameDone = (gameDone, [])
    ∧ promote PlayerId.one 0 gameDone = (gameDone, [])
    ∧ retreat PlayerId.one 0 gameDone = (gameDone, [])
    ∧ endTurn gameDone = (gameDone, [])
    ∧ setPlayerReady PlayerId.one gameDone = (gameDone, []) := by
  have h := C5_game_over_terminal gameDone reachable_gameDone (by decide)
  exact ⟨by decide, by decide, h.1 PlayerId.one 0 0 id, h.2.1 PlayerId.one 0 (-1),
    h.2.2.1 PlayerId.one 0 (-1), h.2.2.2.1, h.2.2.2.2.1 PlayerId.one 0,
    h.2.2.2.2.2.1 PlayerId.one 0, h.2.2.2.2.2.2.1, h.2.2.2.2.2.2.2 PlayerId.one⟩

/-- Shuffle used for the turn-1 double-evolution trace: Lazycats, MC
Scratchinators and Chicken Nuggets go to the deck bottom, so the opening hand
is `[003, 005, 005, 008, 008]`. -/
def comboShuffle : List Card → List Card :=
  toBack (fun c => c.id == "base-003" || c.id == "base-005" || c.id == "base-008")

def nuggetA : GameState :=
  ((initializeGame comboShuffle comboShuffle (fun _ => comboShuffle)
    (fun _ => comboShuffle) 1).getD (initState, [])).1

def nuggetB : GameState := (playCard PlayerId.one 0 0 id nuggetA).1

def nuggetC : GameState := (playCard PlayerId.two 0 0 id nuggetB).1

def nuggetD : GameState := (setPlayerReady PlayerId.one nuggetC).1

/-- A reachable state on turn 1 of the playing phase: player 1's active is a
Lazycat placed during setup (`turnPlaced = 0`) and their hand still holds two
MC Scratchinators and two Chicken Nuggets. -/
def nuggetTurn1 : GameState := (setPlayerReady PlayerId.two nuggetD).1

theorem reachable_nuggetTurn1 : Reachable nuggetTurn1 := by
  have h0 : Reachable nuggetA :=
    Reachable.init comboShuffle comboShuffle (fun _ => comboShuffle)
      (fun _ => comboShuffle) 1 nuggetA [Event.gameInitialized]
      (fun l => toBack_perm _ l) (fun l => toBack_perm _ l)
      (fun _ l => toBack_perm _ l) (fun _ l => toBack_perm _ l) (by decide)
  have h1 : Reachable nuggetB :=
    Reachable.stepPlayCard nuggetA PlayerId.one 0 0 id h0 (fun l => List.Perm.refl l)
  have h2 : Reachable nuggetC :=
    Reachable.stepPlayCard nuggetB PlayerId.two 0 0 id h1 (fun l => List.Perm.refl l)
  have h3 : Reachable nuggetD := Reachable.stepReady nuggetC PlayerId.one h2
  exact Reachable.stepReady nuggetD PlayerId.two h3

/-- C2 counterexample: on the reachable state `nuggetTurn1` the turn counter is
1 (≤ 1), yet `playChickenNugget` succeeds (returns `true` and mutates the
state): the source checks `turnCount <= 1` in `evolve` but not in
`playChickenNugget`, so a basic placed during setup (`turnPlaced = 0 <
turnCount = 1`) can be double-evolved on turn 1. -/
theorem C2_counterexample :
    Reachable nuggetTurn1 ∧ nuggetTurn1.turnCount = 1
    ∧ (playChickenNugget PlayerId.one 2 (-1) nuggetTurn1).2.2 = true
    ∧ (playChickenNugget PlayerId.one 2 (-1) nuggetTurn1).1 ≠ nuggetTurn1 :=
  ⟨reachable_nuggetTurn1, by decide, by decide, by decide⟩

/-- C2 amended: neither `evolve` nor `playChickenNugget` ever succeeds against
a target whose `turnPlaced` equals the current turn counter (both are silent
no-ops then), and `evolve` additionally never succeeds when the turn counter is
1 or less; the turn-counter guarantee does NOT extend to `playChickenNugget`
(see the counterexample). -/
theorem C2_no_same_turn_evolution (s : GameState) (p : PlayerId) (hi tbi : Int)
    (t : Card) (ht : targetOf s p tbi = some t) :
    ((t.turnPlaced.getD 0 = s.turnCount ∨ s.turnCount ≤ 1) → evolve p hi tbi s = (s, []))
    ∧ (t.turnPlaced.getD 0 = s.turnCount → playChickenNugget p hi tbi s = (s, [], false)) := by
  constructor
  · intro hcase
    simp only [evolve, ht]
    split
    · rename_i target hcard hteq hceq
      rw [if_neg]
      intro hgd
      obtain ⟨-, h2lt, -, -, hlt⟩ := hgd
      injection hteq with hteq'
      subst hteq'
      rcases hcase with hca | hca
      · rw [hca] at hlt
        exact lt_irrefl _ hlt
      · omega
    · rfl
  · intro heq
    simp only [playChickenNugget, ht]
    rw [if_neg]
    intro hgd
    exact absurd hgd.2.2 (by rw [heq]; exact lt_irrefl _)

/-- A concrete Axolittle instance for witness states. -/
def witnessCard : Card :=
  { id := "base-001", cname := "Axolittle", hp := some 60, maxHp := some 60,
    attackNm := some "Boink", attackDamage := some 20, isBasic := true }

/-- Fresh state whose player 1 has `witnessCard` active (turnPlaced unset,
read as 0, equal to the turn counter 0). -/
def witnessState : GameState :=
  { initState with player1 := { initState.player1 with active := some witnessCard } }

theorem C2_no_same_turn_evolution_witness :
    targetOf witnessState PlayerId.one (-1) = some witnessCard
    ∧ evolve PlayerId.one 0 (-1) witnessState = (witnessState, [])
    ∧ playChickenNugget PlayerId.one 0 (-1) witnessState = (witnessState, [], false) :=
  have h := C2_no_same_turn_evolution witnessState PlayerId.one 0 (-1) witnessCard (by decide)
  ⟨by decide, h.1 (Or.inl (by decide)), h.2 (by decide)⟩

/-- C10: a `handIndex` that does not address a card in the acting player's
hand (negative or at least the hand length) makes `playCard` a silent no-op. -/
theorem C10_playCard_bad_index (s : GameState) (p : PlayerId) (i : Int)
    (pick : Nat) (σ : List Card → List Card)
    (h : i < 0 ∨ ((getPlayer s p).hand.length : Int) ≤ i) :
    playCard p i pick σ s = (s, []) := by
  simp only [playCard]
  split
  · rfl
  · have hj : jsGet (getPlayer s p).hand i = none := by
      unfold jsGet
      rcases h with h | h
      · rw [if_pos h]
      · rw [if_neg (by omega)]
        exact List.getElem?_eq_none (by omega)
    rw [hj]

theorem C10_playCard_bad_index_witness :
    playCard PlayerId.one 7 0 id initState = (initState, [])
    ∧ playCard PlayerId.one (-1) 0 id initState = (initState, []) :=
  ⟨C10_playCard_bad_index initState PlayerId.one 7 0 id (Or.inr (by decide)),
   C10_playCard_bad_index initState PlayerId.one (-1) 0 id (Or.inl (by decide))⟩

/-! ### How `startTurn` touches the players -/

@[simp] theorem getPlayer_set_flags (s : GameState) (b : Bool) (w : Option PlayerId)
    (p : PlayerId) : getPlayer { s with gameOver := b, winner := w } p = getPlayer s p := by
  cases p <;> rfl

theorem getPlayer_startTurn_other (q : PlayerId) (s : GameState) (r : PlayerId)
    (h : ¬ r = q) : getPlayer (startTurn q s).1 r = getPlayer s r := by
  simp only [startTurn, updatePlayer]
  split <;> cases q <;> cases r <;> first
    | exact absurd rfl h
    | rfl

theorem currentPlayer_startTurn (q : PlayerId) (s : GameState) :
    (startTurn q s).1.currentPlayer = q := by
  simp only [startTurn, updatePlayer]
  split <;> simp

theorem turnCount_startTurn (q : PlayerId) (s : GameState) :
    (startTurn q s).1.turnCount = s.turnCount + 1 := by
  simp only [startTurn, updatePlayer]
  split <;> simp

theorem startTurn_self_board (q : PlayerId) (s : GameState) :
    (getPlayer (startTurn q s).1 q).active = (getPlayer s q).active
    ∧ (getPlayer (startTurn q s).1 q).bench = (getPlayer s q).bench
    ∧ (getPlayer (startTurn q s).1 q).points = (getPlayer s q).points := by
  simp only [startTurn, updatePlayer]
  split <;> cases q <;> simp [getPlayer, setPlayer, drawCardsP]

/-- The attacker's player record after scoring a knockout worth `n` points. -/
def bumpPoints (s : GameState) (pa : Card) (n : Nat) : PlayerState :=
  { getPlayer s s.currentPlayer with
      active := some pa
      points := (getPlayer s s.currentPlayer).points + n }

theorem bumpPoints_points (s : GameState) (pa : Card) (n : Nat) :
    (bumpPoints s pa n).points = (getPlayer s s.currentPlayer).points + n := rfl

/-- The intermediate state inside `attack`'s knockout branch: attacker's
player record replaced by `pp` (points bumped), defender's active cleared. -/
def knockoutState (s : GameState) (pp : PlayerState) : GameState :=
  let s1 := setPlayer s s.currentPlayer pp
  setPlayer s1 (opponentOf s.currentPlayer)
    { getPlayer s1 (opponentOf s.currentPlayer) with active := none }

theorem knockoutState_facts (s : GameState) (pp : PlayerState) :
    getPlayer (knockoutState s pp) s.currentPlayer = pp
    ∧ (getPlayer (knockoutState s pp) (opponentOf s.currentPlayer)).active = none
    ∧ (knockoutState s pp).gameOver = s.gameOver
    ∧ (knockoutState s pp).currentPlayer = s.currentPlayer
    ∧ (knockoutState s pp).winner = s.winner := by
  refine ⟨?_, ?_, by simp [knockoutState], by simp [knockoutState], by simp [knockoutState]⟩
  · rw [knockoutState, getPlayer_setPlayer_ne _ _ (ne_opponentOf _), getPlayer_setPlayer_same]
  · rw [knockoutState, getPlayer_setPlayer_same]

theorem attack_knockout_eq (s : GameState) (pa oa : Card)
    (hact : canAct s s.currentPlayer = true)
    (hpa : (getPlayer s s.currentPlayer).active = some pa)
    (hoa : (getPlayer s (opponentOf s.currentPlayer)).active = some oa)
    (hko : oa.hp.getD 0 - pa.attackDamage.getD 0 ≤ 0) :
    attack s =
      if 3 ≤ (getPlayer s s.currentPlayer).points + (if oa.isEx then 2 else 1)
          ∨ ¬ (getPlayer s (opponentOf s.currentPlayer)).bench.any (·.isSome)
      then endGame s.currentPlayer (knockoutState s (bumpPoints s pa (if oa.isEx then 2 else 1)))
      else endTurn (knockoutState s (bumpPoints s pa (if oa.isEx then 2 else 1))) := by
  simp only [attack, hact, hpa, hoa, if_true]
  rw [if_pos hko]
  rfl

/-- C1: when `attack` knocks out the defender's active creature, the attacker
scores 2 points for an "ex" card and 1 otherwise, the defender's active slot is
cleared, and the game ends in the attacker's favor exactly when the new point
total reaches 3 or the defender's bench is empty (the points threshold alone
already ends the game, reflecting the short-circuit order); otherwise the turn
passes to the opponent. -/
theorem C1_attack_knockout (s : GameState) (pa oa : Card)
    (hact : canAct s s.currentPlayer = true)
    (hpa : (getPlayer s s.currentPlayer).active = some pa)
    (hoa : (getPlayer s (opponentOf s.currentPlayer)).active = some oa)
    (hko : oa.hp.getD 0 - pa.attackDamage.getD 0 ≤ 0) :
    (getPlayer (attack s).1 s.currentPlayer).points
      = (getPlayer s s.currentPlayer).points + (if oa.isEx then 2 else 1)
    ∧ (getPlayer (attack s).1 (opponentOf s.currentPlayer)).active = none
    ∧ (((attack s).1.gameOver = true ∧ (attack s).1.winner = some s.currentPlayer)
        ↔ (3 ≤ (getPlayer s s.currentPlayer).points + (if oa.isEx then 2 else 1)
            ∨ (getPlayer s (opponentOf s.currentPlayer)).bench.any (·.isSome) = false))
    ∧ (3 ≤ (getPlayer s s.currentPlayer).points + (if oa.isEx then 2 else 1)
        → (attack s).1.gameOver = true ∧ (attack s).1.winner = some s.currentPlayer)
    ∧ (¬ (3 ≤ (getPlayer s s.currentPlayer).points + (if oa.isEx then 2 else 1)
            ∨ (getPlayer s (opponentOf s.currentPlayer)).bench.any (·.isSome) = false)
        → (attack s).1.currentPlayer = opponentOf s.currentPlayer
          ∧ (attack s).1.gameOver = false) := by
  have hgo : s.gameOver = false := ((canAct_iff _ _).1 hact).2.2
  obtain ⟨hk1, hk2, hk3, hk4, hk5⟩ :=
    knockoutState_facts s (bumpPoints s pa (if oa.isEx then 2 else 1))
  rw [attack_knockout_eq s pa oa hact hpa hoa hko]
  by_cases hend : 3 ≤ (getPlayer s s.currentPlayer).points + (if oa.isEx then 2 else 1)
      ∨ ¬ (getPlayer s (opponentOf s.currentPlayer)).bench.any (·.isSome) = true
  · rw [if_pos hend]
    simp only [endGame]
    refine ⟨?_, ?_, ?_, fun _ => ⟨by trivial, by trivial⟩, ?_⟩
    · rw [getPlayer_set_flags, hk1, bumpPoints_points]
    · rw [getPlayer_set_flags, hk2]
    · exact iff_of_true ⟨by trivial, by trivial⟩ (by simpa using hend)
    · intro hcon
      exact absurd (by simpa using hend) hcon
  · rw [if_neg hend]
    have hgo2 : (knockoutState s (bumpPoints s pa (if oa.isEx then 2 else 1))).gameOver = false := by
      rw [hk3, hgo]
    rw [endTurn, hgo2, if_neg (by simp), hk4]
    refine ⟨?_, ?_, ?_, ?_, ?_⟩
    · rw [getPlayer_startTurn_other _ _ _ (ne_opponentOf _), hk1, bumpPoints_points]
    · rw [(startTurn_self_board _ _).1, hk2]
    · rw [(startTurn_frame _ _).2.1, hgo2]
      constructor
      · intro hcon
        exact absurd hcon.1 (by simp)
      · intro hcon
        exact absurd (by simpa using hcon) hend
    · intro h3
      exact absurd (Or.inl h3) hend
    · intro hcon
      exact ⟨currentPlayer_startTurn _ _, by rw [(startTurn_frame _ _).2.1, hgo2]⟩

/-- A mid-game state where player 1's Axolittle (20 damage) faces a 20-hp
defender with an empty bench. -/
def atkState : GameState :=
  { initState with
      phase := Phase.playing
      currentPlayer := PlayerId.one
      turnCount := 1
      player1 := { initState.player1 with active := some witnessCard }
      player2 := { initState.player2 with
        active := some { witnessCard with hp := some 20, uid := 1 } } }

theorem C1_attack_knockout_witness :
    (getPlayer (attack atkState).1 PlayerId.one).points = 1
    ∧ (getPlayer (attack atkState).1 PlayerId.two).active = none
    ∧ (attack atkState).1.gameOver = true
    ∧ (attack atkState).1.winner = some PlayerId.one := by
  have h := C1_attack_knockout atkState witnessCard
    { witnessCard with hp := some 20, uid := 1 }
    (by decide) (by decide) (by decide) (by decide)
  exact ⟨h.1.trans (by decide), h.2.1, h.2.2.1.mpr (Or.inr (by decide))⟩

/-! ### Evolution helpers -/

@[simp] theorem getPlayer_updatePlayer_same (s : GameState) (p : PlayerId)
    (f : PlayerState → PlayerState) :
    getPlayer (updatePlayer s p f) p = f (getPlayer s p) := by
  simp [updatePlayer]

theorem benchGet_valid {bench : List (Option Card)} {i : Int} {t : Card}
    (h : benchGet bench i = some t) :
    0 ≤ i ∧ i.toNat < bench.length ∧ bench[i.toNat]? = some (some t) := by
  unfold benchGet at h
  split at h
  · exact absurd h (by simp)
  · rename_i hneg
    have hlt : i.toNat < bench.length := by
      by_contra hge
      rw [List.getElem?_eq_none (by omega)] at h
      exact absurd h (by simp [Option.join])
    refine ⟨by omega, hlt, ?_⟩
    cases hb : bench[i.toNat]? with
    | none => rw [hb] at h; exact absurd h (by simp [Option.join])
    | some o =>
      cases o with
      | none => rw [hb] at h; exact absurd h (by simp [Option.join])
      | some c =>
        rw [hb] at h
        simp at h
        rw [h]

theorem targetOf_cases {s : GameState} {p : PlayerId} {tbi : Int} {t : Card}
    (h : targetOf s p tbi = some t) :
    (tbi = -1 ∧ (getPlayer s p).active = some t)
    ∨ (¬ tbi = -1 ∧ 0 ≤ tbi ∧ tbi.toNat < (getPlayer s p).bench.length
        ∧ (getPlayer s p).bench[tbi.toNat]? = some (some t)) := by
  unfold targetOf at h
  split at h
  · exact Or.inl ⟨by assumption, h⟩
  · exact Or.inr ⟨by assumption, benchGet_valid h⟩

theorem targetOf_performEvolution (p : PlayerId) (ec tc : Card) (tbi : Int) (s : GameState)
    (hv : tbi = -1 ∨ (0 ≤ tbi ∧ tbi.toNat < (getPlayer s p).bench.length)) :
    targetOf (performEvolution p ec tc tbi s).1 p tbi
      = some { ec with
          hp := some (ec.maxHp.getD 0 - (tc.maxHp.getD 0 - tc.hp.getD 0))
          turnPlaced := some s.turnCount } := by
  rcases hv with hv | ⟨hv0, hvl⟩
  · subst hv
    simp [performEvolution, targetOf, updatePlayer]
  · have hne : ¬ tbi = (-1 : Int) := by omega
    simp only [performEvolution, targetOf, updatePlayer, if_neg hne, benchGet,
      getPlayer_setPlayer_same]
    rw [if_neg (by omega), List.getElem?_set_self (by simpa using hvl)]
    simp [Option.join]

theorem snd_mem_of_mem_enum {l : List Card} {i : Nat} {c : Card}
    (h : (i, c) ∈ l.enum) : c ∈ l := by
  obtain ⟨-, hlt, heq⟩ := List.mem_enumFrom h
  simp only [Nat.sub_zero] at heq
  exact heq ▸ List.getElem_mem _

/-- C3: a successful `evolve` (and `playChickenNugget`) carries accumulated
damage forward: the card now occupying the target slot is the hand card with
`hp = maxHp - (target.maxHp - target.hp)` and `turnPlaced` stamped with the
current turn counter. -/
theorem C3_evolution_carries_damage (p : PlayerId) (hi tbi : Int) :
    (∀ s t, targetOf s p tbi = some t → (evolve p hi tbi s).1 ≠ s →
      ∃ c, jsGet (getPlayer s p).hand hi = some c
        ∧ targetOf (evolve p hi tbi s).1 p tbi
          = some { c with
              hp := some (c.maxHp.getD 0 - (t.maxHp.getD 0 - t.hp.getD 0))
              turnPlaced := some s.turnCount })
    ∧ (∀ s t, targetOf s p tbi = some t → (playChickenNugget p hi tbi s).2.2 = true →
      ∃ c, c ∈ (getPlayer s p).hand ∧ c.evolvesFromBasic = some t.id
        ∧ targetOf (playChickenNugget p hi tbi s).1 p tbi
          = some { c with
              hp := some (c.maxHp.getD 0 - (t.maxHp.getD 0 - t.hp.getD 0))
              turnPlaced := some s.turnCount }) := by
  have hv : ∀ s t, targetOf s p tbi = some t → ∀ (newHand : List Card),
      tbi = -1 ∨ (0 ≤ tbi ∧ tbi.toNat <
        (getPlayer (setPlayer s p { getPlayer s p with hand := newHand }) p).bench.length) := by
    intro s t ht newHand
    rcases targetOf_cases ht with ⟨h1, -⟩ | ⟨-, h2, h3, -⟩
    · exact Or.inl h1
    · exact Or.inr ⟨h2, by simp; exact h3⟩
  constructor
  · intro s t ht hne
    cases hc : jsGet (getPlayer s p).hand hi with
    | none =>
      exfalso
      apply hne
      simp only [evolve, ht, hc]
    | some c =>
      by_cases hgd : canAct s p = true ∧ 1 < s.turnCount ∧ c.evolvesFrom.getD "" ≠ ""
          ∧ c.evolvesFrom = some t.id ∧ t.turnPlaced.getD 0 < s.turnCount
      · have heq : evolve p hi tbi s
            = performEvolution p c t tbi
                (setPlayer s p
                  { getPlayer s p with hand := (getPlayer s p).hand.eraseIdx hi.toNat }) := by
          simp only [evolve, ht, hc, if_pos hgd, updatePlayer]
        rw [heq]
        refine ⟨c, rfl, ?_⟩
        rw [targetOf_performEvolution p c t tbi _ (hv s t ht _)]
        simp
      · exfalso
        apply hne
        simp only [evolve, ht, hc, if_neg hgd]
  · intro s t ht hsucc
    by_cases hgd : canAct s p = true ∧ t.isBasic = true ∧ t.turnPlaced.getD 0 < s.turnCount
    · cases hf : (getPlayer s p).hand.enum.find? (fun q =>
          decide ((q.1 : Int) ≠ hi) && decide (q.2.evolvesFromBasic = some t.id)) with
      | none =>
        exfalso
        have : playChickenNugget p hi tbi s = (s, [], false) := by
          simp only [playChickenNugget, ht, if_pos hgd, hf]
        rw [this] at hsucc
        exact absurd hsucc (by simp)
      | some pr =>
        obtain ⟨i2, ec⟩ := pr
        have hmem : ec ∈ (getPlayer s p).hand :=
          snd_mem_of_mem_enum (List.mem_of_find?_eq_some hf)
        have hpred := List.find?_some hf
        simp only [Bool.and_eq_true, decide_eq_true_eq] at hpred
        have heq : (playChickenNugget p hi tbi s).1
            = (performEvolution p ec t tbi
                (setPlayer s p
                  { getPlayer s p with hand :=
                      (if hi ≤ (i2 : Int) then
                        spliceRemove1 (spliceRemove1 (getPlayer s p).hand i2) hi
                      else
                        spliceRemove1 (spliceRemove1 (getPlayer s p).hand hi) i2) })).1 := by
          simp only [playChickenNugget, ht, if_pos hgd, hf]
        rw [heq]
        refine ⟨ec, hmem, hpred.2, ?_⟩
        rw [targetOf_performEvolution p ec t tbi _ (hv s t ht _)]
        simp
    · exfalso
      have : playChickenNugget p hi tbi s = (s, [], false) := by
        simp only [playChickenNugget, ht, if_neg hgd]
      rw [this] at hsucc
      exact absurd hsucc (by simp)

/-- A damaged pre-evolution target: Axolittle with 40 damage taken
(`maxHp = 60`, `hp = 20`), placed on turn 1. -/
def evoTarget : Card := { witnessCard with hp := some 20, turnPlaced := some 1 }

/-- The evolution card in hand: Axolora (`maxHp = 90`). -/
def evoCard : Card :=
  { id := "base-002", cname := "Axolora", hp := some 90, maxHp := some 90,
    attackNm := some "Wand Splash", attackDamage := some 40,
    evolvesFrom := some "base-001", uid := 2 }

/-- Turn-2 state with the damaged Axolittle active and Axolora in hand. -/
def evoState : GameState :=
  { initState with
      phase := Phase.playing
      currentPlayer := PlayerId.one
      turnCount := 2
      player1 := { initState.player1 with active := some evoTarget, hand := [evoCard] } }

/-- The Lazycat placed as player 1's active during setup in the
`nuggetTurn1` trace. -/
def lazyCat8 : Card :=
  { id := "base-003", cname := "Lazycat", hp := some 60, maxHp := some 60,
    attackNm := some "Yawn", attackDamage := some 20, isBasic := true,
    turnPlaced := some 0, uid := 8 }

theorem C3_evolution_carries_damage_witness :
    targetOf (evolve PlayerId.one 0 (-1) evoState).1 PlayerId.one (-1)
      = some { evoCard with hp := some 50, turnPlaced := some 2 }
    ∧ (targetOf (playChickenNugget PlayerId.one 2 (-1) nuggetTurn1).1
        PlayerId.one (-1)).map (·.turnPlaced) = some (some 1) := by
  constructor
  · obtain ⟨c, hc, hres⟩ := (C3_evolution_carries_damage PlayerId.one 0 (-1)).1
      evoState evoTarget (by decide) (by decide)
    have hce : some c = some evoCard := hc.symm.trans (by decide)
    injection hce with hce'
    rw [hce'] at hres
    rw [hres]
    decide
  · obtain ⟨c, -, -, hres⟩ := (C3_evolution_carries_damage PlayerId.one 2 (-1)).2
      nuggetTurn1 lazyCat8 (by decide) (by decide)
    rw [hres]
    simp
    decide

/-! ### C4: playing a basic onto a full bench -/

theorem insertIdx_eraseIdx_set (l : List Card) (i : Nat) (x : Card) (h : i < l.length) :
    (l.eraseIdx i).insertIdx i x = l.set i x := by
  induction l generalizing i with
  | nil => simp at h
  | cons a t ih =>
    cases i with
    | zero => simp
    | succ n => simp [ih n (by simpa using h)]

theorem indexOf?_none_eq_none {l : List (Option Card)}
    (h : ∀ b ∈ l, b.isSome = true) : l.indexOf? none = none := by
  unfold List.indexOf?
  rw [List.findIdx?_eq_none_iff]
  intro x hx
  have := h x hx
  cases x with
  | none => exact absurd this (by simp)
  | some c => simp

theorem playBasic_full_bench (p : PlayerId) (i : Nat) (s : GameState) (c : Card)
    (hc : (getPlayer s p).hand[i]? = some c)
    (hactive : (getPlayer s p).active.isSome = true)
    (hbench : ∀ b ∈ (getPlayer s p).bench, b.isSome = true) :
    playBasic p i s
      = (setPlayer s p { getPlayer s p with
          hand := (getPlayer s p).hand.set i { c with turnPlaced := some s.turnCount } },
         false) := by
  have hlen : i < (getPlayer s p).hand.length := by
    by_contra hge
    rw [List.getElem?_eq_none (by omega)] at hc
    cases hc
  simp only [playBasic, hc]
  cases ha : (getPlayer s p).active with
  | none => rw [ha] at hactive; exact absurd hactive (by simp)
  | some a =>
    rw [indexOf?_none_eq_none hbench, insertIdx_eraseIdx_set _ _ _ hlen]

/-- C4 counterexample state: full board for player 1 and a fresh Axolittle
(`turnPlaced = none`) in hand, on turn 1 of the playing phase. -/
def c4Basic : Card := { witnessCard with uid := 4 }

def c4State : GameState :=
  { initState with
      phase := Phase.playing
      currentPlayer := PlayerId.one
      turnCount := 1
      player1 :=
        { deck := [], hand := [c4Basic]
          active := some { witnessCard with uid := 5 }
          bench := [some { witnessCard with uid := 6 }, some { witnessCard with uid := 7 },
            some { witnessCard with uid := 8 }]
          points := 0, hasPlayedSupporter := false } }

/-- C4 counterexample: `playCard` on a basic with a full bench emits no
notification and keeps the card at its hand index, but it is NOT a pure no-op:
the source stamps `turnPlaced` on the card object before discovering the bench
is full and never undoes it, so the card in hand ends up mutated. -/
theorem C4_counterexample :
    (playCard PlayerId.one 0 0 id c4State).1 ≠ c4State
    ∧ (playCard PlayerId.one 0 0 id c4State).2 = []
    ∧ (getPlayer (playCard PlayerId.one 0 0 id c4State).1 PlayerId.one).hand
        = [{ c4Basic with turnPlaced := some 1 }]
    ∧ c4Basic.turnPlaced = none :=
  ⟨by decide, by decide, by decide, by decide⟩

/-- C4 amended: with an occupied active slot and all 3 bench slots occupied,
`playCard` on a basic creature fails without emitting a notification and the
card stays in hand at the same index, but with its `turnPlaced` field set to
the current turn counter; everything else is unchanged. -/
theorem C4_full_bench_play_fails (s : GameState) (p : PlayerId) (i : Int)
    (pick : Nat) (σ : List Card → List Card) (c : Card)
    (hout : ¬ (s.gameOver = true ∨ (s.phase = Phase.playing ∧ ¬ s.currentPlayer = p)))
    (hc : jsGet (getPlayer s p).hand i = some c)
    (hsup : c.isSupporter = false)
    (h7 : ¬ c.id = "base-007") (h8 : ¬ c.id = "base-008")
    (hbasic : c.isBasic = true)
    (hactive : (getPlayer s p).active.isSome = true)
    (hbench : ∀ b ∈ (getPlayer s p).bench, b.isSome = true) :
    playCard p i pick σ s
      = (setPlayer s p { getPlayer s p with
          hand := (getPlayer s p).hand.set i.toNat
            { c with turnPlaced := some s.turnCount } }, []) := by
  have hc' : (getPlayer s p).hand[i.toNat]? = some c := by
    unfold jsGet at hc
    split at hc
    · cases hc
    · exact hc
  have hdisp : (if c.isSupporter = true then playSupporter p i.toNat s
      else if c.id = "base-007" then playCoachWhistle p i.toNat pick σ s
      else if c.id = "base-008" then (s, false)
      else if c.isBasic = true then playBasic p i.toNat s
      else (s, false))
      = (setPlayer s p { getPlayer s p with
          hand := (getPlayer s p).hand.set i.toNat
            { c with turnPlaced := some s.turnCount } }, false) := by
    rw [if_neg (by simp [hsup]), if_neg h7, if_neg h8, if_pos hbasic,
      playBasic_full_bench p i.toNat s c hc' hactive hbench]
  simp only [playCard, hc]
  rw [if_neg hout, hdisp]
  simp

theorem C4_full_bench_play_fails_witness :
    playCard PlayerId.one 0 0 id c4State
      = (setPlayer c4State PlayerId.one { getPlayer c4State PlayerId.one with
          hand := [{ c4Basic with turnPlaced := some 1 }] }, []) := by
  have h := C4_full_bench_play_fails c4State PlayerId.one 0 0 id c4Basic
    (by decide) (by decide) (by decide) (by decide) (by decide) (by decide)
    (by decide) (by decide)
  rw [h]
  decide

@[simp] theorem setPlayer_setPlayer_same (s : GameState) (p : PlayerId)
    (a b : PlayerState) : setPlayer (setPlayer s p a) p b = setPlayer s p b := by
  cases p <;> rfl

/-- C6: in the playing phase a first supporter play succeeds (drawing 2 cards,
discarding the supporter, setting the flag, one update notification); any
further supporter play in the same turn, and any supporter play during setup,
is a silent no-op; `startTurn` resets exactly the starting player's flag. -/
theorem C6_supporter_once_per_turn (p : PlayerId) (i : Int) (pick : Nat)
    (σ : List Card → List Card) :
    (∀ s c, ¬ (s.gameOver = true ∨ (s.phase = Phase.playing ∧ ¬ s.currentPlayer = p)) →
      jsGet (getPlayer s p).hand i = some c → c.isSupporter = true →
      s.phase = Phase.playing → (getPlayer s p).hasPlayedSupporter = false →
      playCard p i pick σ s
        = (setPlayer s p { getPlayer s p with
            hand := ((getPlayer s p).hand ++
              (getPlayer s p).deck.drop ((getPlayer s p).deck.length - 2)).eraseIdx i.toNat
            deck := (getPlayer s p).deck.take ((getPlayer s p).deck.length - 2)
            hasPlayedSupporter := true }, [Event.gameStateUpdated]))
    ∧ (∀ s c, jsGet (getPlayer s p).hand i = some c → c.isSupporter = true →
        (getPlayer s p).hasPlayedSupporter = true → playCard p i pick σ s = (s, []))
    ∧ (∀ s c, jsGet (getPlayer s p).hand i = some c → c.isSupporter = true →
        s.phase = Phase.setup → playCard p i pick σ s = (s, []))
    ∧ (∀ s q, (getPlayer (startTurn q s).1 q).hasPlayedSupporter = false
        ∧ (getPlayer (startTurn q s).1 (opponentOf q)).hasPlayedSupporter
          = (getPlayer s (opponentOf q)).hasPlayedSupporter) := by
  refine ⟨?_, ?_, ?_, ?_⟩
  · intro s c hout hc hsupp hphase hflag
    have hcur : s.currentPlayer = p := by
      rcases not_or.1 hout with ⟨-, h2⟩
      by_contra hne
      exact h2 ⟨hphase, hne⟩
    have hps : playSupporter p i.toNat s
        = (setPlayer s p { getPlayer s p with
            hand := ((getPlayer s p).hand ++
              (getPlayer s p).deck.drop ((getPlayer s p).deck.length - 2)).eraseIdx i.toNat
            deck := (getPlayer s p).deck.take ((getPlayer s p).deck.length - 2)
            hasPlayedSupporter := true }, true) := by
      simp only [playSupporter]
      rw [if_neg (by simp [hphase, hflag]), hcur]
      simp [updatePlayer, drawCardsP]
    simp only [playCard, hc]
    rw [if_neg hout, if_pos hsupp, hps]
    simp
  · intro s c hc hsupp hflag
    simp only [playCard, hc]
    split
    · rfl
    · have hps : playSupporter p i.toNat s = (s, false) := by
        simp [playSupporter, hflag]
      rw [hps]
      simp [hsupp]
  · intro s c hc hsupp hsetup
    simp only [playCard, hc]
    split
    · rfl
    · have hps : playSupporter p i.toNat s = (s, false) := by
        simp [playSupporter, hsetup]
      rw [hps]
      simp [hsupp]
  · intro s q
    constructor
    · simp only [startTurn, updatePlayer]
      split <;> cases q <;> simp [getPlayer, setPlayer, drawCardsP]
    · rw [getPlayer_startTurn_other q s _ (opponentOf_ne q)]

def supCard : Card :=
  { id := "base-006", cname := "Panda's Plan", rule := some "Draw 2 cards.",
    isTrainer := true, isSupporter := true, uid := 30 }

/-- Playing-phase state with a supporter in hand, a 2-card deck, and the
supporter flag still clear. -/
def supState : GameState :=
  { initState with
      phase := Phase.playing
      currentPlayer := PlayerId.one
      turnCount := 1
      player1 :=
        { deck := [c4Basic, { witnessCard with uid := 12 }], hand := [supCard]
          active := some { witnessCard with uid := 13 }
          bench := [none, none, none], points := 0, hasPlayedSupporter := false } }

def supState2 : GameState :=
  { supState with player1 := { supState.player1 with hasPlayedSupporter := true } }

def supState3 : GameState := { supState with phase := Phase.setup }

theorem C6_supporter_once_per_turn_witness :
    ((getPlayer (playCard PlayerId.one 0 0 id supState).1 PlayerId.one).hasPlayedSupporter = true
      ∧ (playCard PlayerId.one 0 0 id supState).2 = [Event.gameStateUpdated]
      ∧ (getPlayer (playCard PlayerId.one 0 0 id supState).1 PlayerId.one).hand.length = 2)
    ∧ playCard PlayerId.one 0 0 id supState2 = (supState2, [])
    ∧ playCard PlayerId.one 0 0 id supState3 = (supState3, [])
    ∧ ((getPlayer (startTurn PlayerId.one supState2).1 PlayerId.one).hasPlayedSupporter = false
      ∧ (getPlayer (startTurn PlayerId.one supState2).1 PlayerId.two).hasPlayedSupporter
        = (getPlayer supState2 PlayerId.two).hasPlayedSupporter) := by
  have h := C6_supporter_once_per_turn PlayerId.one 0 0 id
  refine ⟨?_, h.2.1 supState2 supCard (by decide) (by decide) (by decide),
    h.2.2.1 supState3 supCard (by decide) (by decide) (by decide),
    h.2.2.2 supState2 PlayerId.one⟩
  rw [h.1 supState supCard (by decide) (by decide) (by decide) (by decide) (by decide)]
  refine ⟨by decide, rfl, by decide⟩

/-! ### C7: initial hand draw -/

theorem drawInitialLoop_spec (t : Nat → List Card → List Card)
    (ht : ∀ k l, (t k l).Perm l) :
    ∀ (fuel k : Nat) (deck hand d' h' : List Card),
      5 ≤ deck.length + hand.length →
      drawInitialLoop t fuel k deck hand = some (d', h') →
      h'.length = 5 ∧ h'.any (·.isBasic) = true ∧ (d' ++ h').Perm (deck ++ hand) := by
  intro fuel
  induction fuel with
  | zero =>
    intro k deck hand d' h' hlen h
    simp [drawInitialLoop] at h
  | succ n ih =>
    intro k deck hand d' h' hlen h
    simp only [drawInitialLoop] at h
    have hdperm : (t k (deck ++ hand)).Perm (deck ++ hand) := ht k _
    have hdlen : (t k (deck ++ hand)).length = deck.length + hand.length := by
      rw [hdperm.length_eq]
      simp
    split at h
    · rename_i hb
      simp only [Option.some.injEq, Prod.mk.injEq] at h
      obtain ⟨hd', hh'⟩ := h
      subst hd'
      subst hh'
      refine ⟨?_, hb, ?_⟩
      · rw [List.length_drop]
        omega
      · exact (List.take_append_drop _ _).symm ▸ hdperm
    · rename_i hb
      have hlen2 : 5 ≤ (List.take ((t k (deck ++ hand)).length - 5) (t k (deck ++ hand))).length
          + (List.drop ((t k (deck ++ hand)).length - 5) (t k (deck ++ hand))).length := by
        rw [List.length_take, List.length_drop]
        omega
      obtain ⟨ha, hbs, hperm⟩ := ih (k + 1) _ _ d' h' hlen2 h
      refine ⟨ha, hbs, hperm.trans ?_⟩
      rw [List.take_append_drop]
      exact hdperm

/-- C7: whenever `initializeGame`'s per-player initial-hand retry loop
terminates, each player holds exactly 5 cards including at least one basic
creature, and that player's deck and hand together are a permutation of all 20
card instances built for them. -/
theorem C7_initial_hands (σ1 σ2 : List Card → List Card)
    (t1 t2 : Nat → List Card → List Card) (fuel : Nat) (s : GameState) (ev : List Event)
    (hp1 : ∀ l, (σ1 l).Perm l) (hp2 : ∀ l, (σ2 l).Perm l)
    (hp3 : ∀ k l, (t1 k l).Perm l) (hp4 : ∀ k l, (t2 k l).Perm l)
    (h : initializeGame σ1 σ2 t1 t2 fuel = some (s, ev)) :
    (s.player1.hand.length = 5 ∧ s.player1.hand.any (·.isBasic) = true
      ∧ (s.player1.deck ++ s.player1.hand).Perm (mkDeck 0))
    ∧ (s.player2.hand.length = 5 ∧ s.player2.hand.any (·.isBasic) = true
      ∧ (s.player2.deck ++ s.player2.hand).Perm (mkDeck 20)) := by
  simp only [initializeGame] at h
  split at h
  · rename_i dk1 h1 dk2 h2 heq1 heq2
    simp only [Option.some.injEq, Prod.mk.injEq] at h
    obtain ⟨hs, -⟩ := h
    subst hs
    have hl1 : 5 ≤ (σ1 (mkDeck 0)).length + ([] : List Card).length := by
      rw [(hp1 _).length_eq]
      decide
    have hl2 : 5 ≤ (σ2 (mkDeck 20)).length + ([] : List Card).length := by
      rw [(hp2 _).length_eq]
      decide
    obtain ⟨ha1, hb1, hq1⟩ := drawInitialLoop_spec t1 hp3 fuel 0 _ _ _ _ hl1 heq1
    obtain ⟨ha2, hb2, hq2⟩ := drawInitialLoop_spec t2 hp4 fuel 0 _ _ _ _ hl2 heq2
    refine ⟨⟨ha1, hb1, ?_⟩, ⟨ha2, hb2, ?_⟩⟩
    · exact hq1.trans (by rw [List.append_nil]; exact hp1 _)
    · exact hq2.trans (by rw [List.append_nil]; exact hp2 _)
  · exact absurd h (by simp)

/-! ### C8: Coach Whistle -/

theorem filterMapIdx_length (n : Nat) (d : List Card) :
    ((List.enumFrom n d).filterMap fun q => if q.2.isBasic then some q.1 else none).length
      = d.countP (·.isBasic) := by
  induction d generalizing n with
  | nil => rfl
  | cons a t ih =>
    by_cases hb : a.isBasic = true <;>
      simp [List.enumFrom, List.filterMap_cons, hb, ih, List.countP_cons]

theorem mem_filterMapIdx {n j : Nat} {d : List Card}
    (h : j ∈ (List.enumFrom n d).filterMap fun q => if q.2.isBasic then some q.1 else none) :
    ∃ b, n ≤ j ∧ d[j - n]? = some b ∧ b.isBasic = true := by
  induction d generalizing n with
  | nil => simp [List.enumFrom] at h
  | cons a t ih =>
    simp only [List.enumFrom, List.filterMap_cons] at h
    by_cases hb : a.isBasic = true
    · rw [if_pos hb] at h
      rcases List.mem_cons.1 h with hj | hj
      · subst hj
        exact ⟨a, le_refl _, by simp, hb⟩
      · obtain ⟨b, hle, hget, hbb⟩ := ih hj
        refine ⟨b, by omega, ?_, hbb⟩
        have : j - n = (j - (n + 1)) + 1 := by omega
        rw [this, List.getElem?_cons_succ]
        exact hget
    · rw [if_neg hb] at h
      obtain ⟨b, hle, hget, hbb⟩ := ih h
      refine ⟨b, by omega, ?_, hbb⟩
      have : j - n = (j - (n + 1)) + 1 := by omega
      rw [this, List.getElem?_cons_succ]
      exact hget

theorem basicIndices_length (d : List Card) :
    (basicIndices d).length = d.countP (·.isBasic) :=
  filterMapIdx_length 0 d

theorem mem_basicIndices {j : Nat} {d : List Card} (h : j ∈ basicIndices d) :
    ∃ b, d[j]? = some b ∧ b.isBasic = true := by
  obtain ⟨b, -, hget, hbb⟩ := mem_filterMapIdx (n := 0) h
  exact ⟨b, by simpa using hget, hbb⟩

theorem getD_mem_of_lt {l : List Nat} {k : Nat} (h : k < l.length) : l.getD k 0 ∈ l := by
  rw [List.getD_eq_getElem l 0 h]
  exact List.getElem_mem h

theorem countP_eraseIdx_basic {d : List Card} {j : Nat} {b : Card}
    (h : d[j]? = some b) (hb : b.isBasic = true) :
    (d.eraseIdx j).countP (·.isBasic) + 1 = d.countP (·.isBasic) := by
  induction d generalizing j with
  | nil => simp at h
  | cons a t ih =>
    cases j with
    | zero =>
      simp only [List.getElem?_cons_zero, Option.some.injEq] at h
      subst h
      simp [List.countP_cons, hb]
    | succ m =>
      rw [List.getElem?_cons_succ] at h
      simp only [List.eraseIdx_cons_succ, List.countP_cons]
      rw [← ih h]
      omega

/-- C8: playing Coach Whistle in the playing phase with a deck of exactly 2
basic and 2 non-basic cards moves exactly one basic card from deck to hand,
leaves the (reshuffled) deck at 3 cards with exactly one basic remaining, and
removes the whistle from hand. -/
theorem C8_coach_whistle (s : GameState) (p : PlayerId) (i : Int) (pick : Nat)
    (σ : List Card → List Card) (c : Card)
    (hσ : ∀ l, (σ l).Perm l)
    (hout : ¬ (s.gameOver = true ∨ (s.phase = Phase.playing ∧ ¬ s.currentPlayer = p)))
    (hc : jsGet (getPlayer s p).hand i = some c)
    (hsup : c.isSupporter = false) (hid : c.id = "base-007")
    (hphase : ¬ s.phase = Phase.setup)
    (hcount : (getPlayer s p).deck.countP (·.isBasic) = 2)
    (hlen : (getPlayer s p).deck.length = 4) :
    ∃ j b, (getPlayer s p).deck[j]? = some b ∧ b.isBasic = true
      ∧ (getPlayer (playCard p i pick σ s).1 p).hand
          = (getPlayer s p).hand.eraseIdx i.toNat ++ [b]
      ∧ (getPlayer (playCard p i pick σ s).1 p).deck.Perm
          ((getPlayer s p).deck.eraseIdx j)
      ∧ (getPlayer (playCard p i pick σ s).1 p).deck.length = 3
      ∧ (getPlayer (playCard p i pick σ s).1 p).deck.countP (·.isBasic) = 1
      ∧ (playCard p i pick σ s).2 = [Event.gameStateUpdated] := by
  have hblen : (basicIndices (getPlayer s p).deck).length = 2 := by
    rw [basicIndices_length, hcount]
  have hnotempty : ¬ (basicIndices (getPlayer s p).deck).isEmpty = true := by
    rw [List.isEmpty_iff]
    intro hcon
    rw [hcon] at hblen
    cases hblen
  have hjmem : (basicIndices (getPlayer s p).deck).getD
      (pick % (basicIndices (getPlayer s p).deck).length) 0
      ∈ basicIndices (getPlayer s p).deck :=
    getD_mem_of_lt (Nat.mod_lt _ (by omega))
  obtain ⟨b, hget, hbb⟩ := mem_basicIndices hjmem
  have hjlt : (basicIndices (getPlayer s p).deck).getD
      (pick % (basicIndices (getPlayer s p).deck).length) 0
      < (getPlayer s p).deck.length := by
    by_contra hge
    rw [List.getElem?_eq_none (by omega)] at hget
    cases hget
  have hwr : playCoachWhistle p i.toNat pick σ s
      = (setPlayer s p { getPlayer s p with
          hand := (getPlayer s p).hand.eraseIdx i.toNat ++
            ((getPlayer s p).deck[(basicIndices (getPlayer s p).deck).getD
              (pick % (basicIndices (getPlayer s p).deck).length) 0]?).toList
          deck := σ ((getPlayer s p).deck.eraseIdx
            ((basicIndices (getPlayer s p).deck).getD
              (pick % (basicIndices (getPlayer s p).deck).length) 0)) }, true) := by
    simp only [playCoachWhistle, updatePlayer]
    rw [if_neg hphase, if_neg hnotempty]
  have hdisp : (if c.isSupporter = true then playSupporter p i.toNat s
      else if c.id = "base-007" then playCoachWhistle p i.toNat pick σ s
      else if c.id = "base-008" then (s, false)
      else if c.isBasic = true then playBasic p i.toNat s
      else (s, false)) = playCoachWhistle p i.toNat pick σ s := by
    rw [if_neg (by simp [hsup]), if_pos hid]
  have heq : playCard p i pick σ s
      = ((playCoachWhistle p i.toNat pick σ s).1, [Event.gameStateUpdated]) := by
    simp only [playCard, hc]
    rw [if_neg hout, hdisp, hwr]
    simp
  refine ⟨(basicIndices (getPlayer s p).deck).getD
      (pick % (basicIndices (getPlayer s p).deck).length) 0, b, hget, hbb, ?_, ?_, ?_, ?_, ?_⟩
  · rw [heq, hwr, getPlayer_setPlayer_same, hget]
    rfl
  · rw [heq, hwr, getPlayer_setPlayer_same]
    exact hσ _
  · rw [heq, hwr, getPlayer_setPlayer_same]
    have := (hσ ((getPlayer s p).deck.eraseIdx
      ((basicIndices (getPlayer s p).deck).getD
        (pick % (basicIndices (getPlayer s p).deck).length) 0))).length_eq
    rw [this, List.length_eraseIdx, if_pos hjlt, hlen]
  · rw [heq, hwr, getPlayer_setPlayer_same]
    have hcp := (hσ ((getPlayer s p).deck.eraseIdx
      ((basicIndices (getPlayer s p).deck).getD
        (pick % (basicIndices (getPlayer s p).deck).length) 0))).countP_eq (·.isBasic)
    rw [hcp]
    have := countP_eraseIdx_basic hget hbb
    omega
  · rw [heq]

def whistleCard : Card :=
  { id := "base-007", cname := "Coach Whistle", rule := some "Draw one random basic Buddy.",
    isTrainer := true, isItem := true, uid := 40 }

/-- Playing-phase state with Coach Whistle in hand and a 4-card deck holding
exactly 2 basics and 2 non-basics. -/
def whistleState : GameState :=
  { initState with
      phase := Phase.playing
      currentPlayer := PlayerId.one
      turnCount := 1
      player1 :=
        { deck := [{ witnessCard with uid := 20 }, { evoCard with uid := 21 },
            { witnessCard with uid := 22 }, { evoCard with uid := 23 }]
          hand := [whistleCard]
          active := some { witnessCard with uid := 24 }
          bench := [none, none, none], points := 0, hasPlayedSupporter := false } }

theorem C8_coach_whistle_witness :
    (getPlayer (playCard PlayerId.one 0 0 id whistleState).1 PlayerId.one).deck.length = 3
    ∧ (getPlayer (playCard PlayerId.one 0 0 id whistleState).1 PlayerId.one).deck.countP
        (·.isBasic) = 1
    ∧ (getPlayer (playCard PlayerId.one 0 0 id whistleState).1 PlayerId.one).hand.length = 1
    ∧ (getPlayer (playCard PlayerId.one 0 0 id whistleState).1 PlayerId.one).hand.countP
        (·.isBasic) = 1
    ∧ (playCard PlayerId.one 0 0 id whistleState).2 = [Event.gameStateUpdated] := by
  obtain ⟨j, b, hget, hbb, hhand, hperm, hdlen, hdcount, hev⟩ :=
    C8_coach_whistle whistleState PlayerId.one 0 0 id whistleCard
      (fun l => List.Perm.refl l) (by decide) (by decide) (by decide) (by decide)
      (by decide) (by decide) (by decide)
  refine ⟨hdlen, hdcount, ?_, ?_, hev⟩
  · rw [hhand]
    simp
    decide
  · rw [hhand]
    simp [hbb]
    decide

theorem C7_initial_hands_witness :
    game5A.player1.hand.length = 5 ∧ game5A.player1.hand.any (·.isBasic) = true
    ∧ (game5A.player1.deck ++ game5A.player1.hand).Perm (mkDeck 0)
    ∧ game5A.player2.hand.length = 5 :=
  have h := C7_initial_hands benchShuffle benchShuffle (fun _ => benchShuffle)
    (fun _ => benchShuffle) 1 game5A [Event.gameInitialized]
    (fun l => toBack_perm _ l) (fun l => toBack_perm _ l)
    (fun _ l => toBack_perm _ l) (fun _ l => toBack_perm _ l) (by decide)
  ⟨h.1.1, h.1.2.1, h.1.2.2, h.2.1⟩

/-! ### C9: retreat and promote -/

theorem benchGet_set (bench : List (Option Card)) (i : Int) (x : Option Card)
    (h0 : ¬ i < 0) (hlt : i.toNat < bench.length) :
    benchGet (bench.set i.toNat x) i = x := by
  unfold benchGet
  rw [if_neg h0, List.getElem?_set_self (by simpa using hlt)]
  cases x <;> rfl

/-- C9: a successful `retreat` swaps exactly the active creature and the
targeted bench creature, leaving the acting player's other fields, the
opponent, the current player, turn counter and phase unchanged, and never
leaves the two slots both empty or (for distinct instances) equal; a
successful `promote` moves the bench creature into the empty active slot and
empties the bench slot. -/
theorem C9_retreat_promote_swap (s : GameState) (p : PlayerId) (bi : Int) :
    (∀ a b, canAct s p = true → (getPlayer s p).active = some a →
      benchGet (getPlayer s p).bench bi = some b →
      (getPlayer (retreat p bi s).1 p).active = some b
      ∧ benchGet (getPlayer (retreat p bi s).1 p).bench bi = some a
      ∧ (retreat p bi s).1.currentPlayer = s.currentPlayer
      ∧ (retreat p bi s).1.turnCount = s.turnCount
      ∧ (retreat p bi s).1.phase = s.phase
      ∧ (getPlayer (retreat p bi s).1 p).points = (getPlayer s p).points
      ∧ (getPlayer (retreat p bi s).1 p).hand = (getPlayer s p).hand
      ∧ (getPlayer (retreat p bi s).1 p).deck = (getPlayer s p).deck
      ∧ getPlayer (retreat p bi s).1 (opponentOf p) = getPlayer s (opponentOf p)
      ∧ ¬ ((getPlayer (retreat p bi s).1 p).active = none
          ∧ benchGet (getPlayer (retreat p bi s).1 p).bench bi = none)
      ∧ (¬ a = b → ¬ (getPlayer (retreat p bi s).1 p).active
          = benchGet (getPlayer (retreat p bi s).1 p).bench bi))
    ∧ (∀ b, s.gameOver = false → (getPlayer s p).active = none →
      benchGet (getPlayer s p).bench bi = some b →
      (getPlayer (promote p bi s).1 p).active = some b
      ∧ benchGet (getPlayer (promote p bi s).1 p).bench bi = none
      ∧ ¬ ((getPlayer (promote p bi s).1 p).active = none
          ∧ benchGet (getPlayer (promote p bi s).1 p).bench bi = none)
      ∧ ¬ (getPlayer (promote p bi s).1 p).active
          = benchGet (getPlayer (promote p bi s).1 p).bench bi) := by
  constructor
  · intro a b hact ha hb
    obtain ⟨hb0, hblt, -⟩ := benchGet_valid hb
    have heq : retreat p bi s
        = (setPlayer s p { getPlayer s p with
            active := some b
            bench := (getPlayer s p).bench.set bi.toNat (some a) },
           [Event.gameStateUpdated]) := by
      simp only [retreat, hact, ha, hb, if_true]
    rw [heq]
    simp only [getPlayer_setPlayer_same, currentPlayer_setPlayer, turnCount_setPlayer,
      phase_setPlayer]
    refine ⟨by trivial, ?_, by trivial, by trivial, by trivial, by trivial, by trivial,
      by trivial, ?_, ?_, ?_⟩
    · exact benchGet_set _ _ _ (by omega) hblt
    · exact getPlayer_setPlayer_ne _ _ (opponentOf_ne p)
    · intro hcon
      cases hcon.1
    · intro hne hcon
      rw [benchGet_set _ _ _ (by omega) hblt] at hcon
      injection hcon with hcon'
      exact hne hcon'.symm
  · intro b hgo ha hb
    obtain ⟨hb0, hblt, -⟩ := benchGet_valid hb
    have heq : promote p bi s
        = (setPlayer s p { getPlayer s p with
            active := benchGet (getPlayer s p).bench bi
            bench := (getPlayer s p).bench.set bi.toNat none },
           [Event.gameStateUpdated]) := by
      simp only [promote]
      rw [if_neg]
      intro hcon
      rcases hcon with hcon | hcon | hcon
      · rw [hgo] at hcon
        cases hcon
      · rw [ha] at hcon
        cases hcon
      · rw [hb] at hcon
        cases hcon
    rw [heq]
    simp only [getPlayer_setPlayer_same]
    refine ⟨hb, ?_, ?_, ?_⟩
    · exact benchGet_set _ _ _ (by omega) hblt
    · intro hcon
      rw [hb] at hcon
      cases hcon.1
    · intro hcon
      rw [hb, benchGet_set _ _ _ (by omega) hblt] at hcon
      cases hcon

def retreatA : Card := { witnessCard with uid := 50 }

def retreatB : Card := { witnessCard with uid := 51 }

def retreatState : GameState :=
  { initState with
      phase := Phase.playing
      currentPlayer := PlayerId.one
      turnCount := 1
      player1 :=
        { deck := [], hand := [], active := some retreatA
          bench := [some retreatB, none, none], points := 0, hasPlayedSupporter := false } }

def promoteState : GameState :=
  { retreatState with player1 := { retreatState.player1 with active := none } }

theorem C9_retreat_promote_swap_witness :
    (getPlayer (retreat PlayerId.one 0 retreatState).1 PlayerId.one).active = some retreatB
    ∧ benchGet (getPlayer (retreat PlayerId.one 0 retreatState).1 PlayerId.one).bench 0
        = some retreatA
    ∧ (getPlayer (promote PlayerId.one 0 promoteState).1 PlayerId.one).active = some retreatB
    ∧ benchGet (getPlayer (promote PlayerId.one 0 promoteState).1 PlayerId.one).bench 0
        = none := by
  have r := (C9_retreat_promote_swap retreatState PlayerId.one 0).1 retreatA retreatB
    (by decide) (by decide) (by decide)
  have q := (C9_retreat_promote_swap promoteState PlayerId.one 0).2 retreatB
    (by decide) (by decide) (by decide)
  exact ⟨r.1, r.2.1, q.1, q.2.1⟩
